import Mathlib

/-!
Shallow embedding of the core data operations of the journaling-study
pipeline: questionnaire scoring and suspicious-response detection
(`src/modules/QualtricsProcessing.py`) and the final participant filter
(`src/preprocessing/final_filter.py`).

Tables are lists of rows; pandas missing values (`NaN`) are `Option.none`;
floating-point numbers are idealised as rationals.  pandas `groupby` sorts
its group keys, which no property stated below depends on; group keys are
enumerated here in first-occurrence order via `List.dedup`.
-/

namespace JournalPipeline

/-- Python `str.split()` with no argument, on an explicit character list:
maximal runs of non-whitespace characters, all whitespace dropped.
`current` accumulates the word in progress (reversed). -/
def splitWsAux : List Char → List Char → List (List Char)
  | current, [] => if current.isEmpty then [] else [current.reverse]
  | current, c :: rest =>
    if c.isWhitespace then
      if current.isEmpty then splitWsAux [] rest
      else current.reverse :: splitWsAux [] rest
    else splitWsAux (c :: current) rest

/-- Python `s.split()`: whitespace-delimited words of `s`. -/
def pyWords (s : String) : List String :=
  (splitWsAux [] s.data).map List.asString

/-- Python `s.split(sep)` for a single-character separator. -/
def splitCharsOn (sep : Char) : List Char → List (List Char)
  | [] => [[]]
  | c :: rest =>
    let r := splitCharsOn sep rest
    if c = sep then [] :: r
    else
      match r with
      | h :: t => (c :: h) :: t
      | [] => [[c]]

/-- Python `sep.join(parts)` for a single-character separator. -/
def joinWith (sep : Char) : List (List Char) → List Char
  | [] => []
  | [x] => x
  | x :: xs => x ++ sep :: joinWith sep xs

/-- `'.'.join(str(x).split('.')[:3])` — truncate an IP address to its
first three octets (`QualtricsProcessing.py`, `flag_ips`). -/
def truncIP (s : String) : String :=
  (joinWith '.' ((splitCharsOn '.' s.data).take 3)).asString

/-- The per-cell effect of `fillna('0.0.0')` followed by octet truncation. -/
def processIP (o : Option String) : String :=
  truncIP (o.getD "0.0.0")

/-- Lookup in a Python dict built by repeated insertion: the binding
inserted last wins. -/
def dictLookup {α : Type} (l : List (String × α)) (k : String) : Option α :=
  (l.reverse.find? (fun kv => decide (kv.1 = k))).map (·.2)

/-- pandas `GroupBy.first` on one column: the first non-null value. -/
def firstSome {α : Type} (l : List (Option α)) : Option α :=
  (l.filterMap id).head?

/-- pandas row-wise `sum` with its default `skipna=True`: missing entries
contribute nothing, and an all-missing row sums to `0`. -/
def pdRowSum : List (Option ℚ) → ℚ
  | [] => 0
  | none :: rest => pdRowSum rest
  | some x :: rest => x + pdRowSum rest

/-- A raw spreadsheet cell: numeric, free text, or empty. -/
inductive Cell where
  | num (q : ℚ)
  | text (s : String)
  | empty
deriving DecidableEq

/-- `pd.to_numeric(errors='coerce')`: non-numeric cells become missing. -/
def toNumeric : Cell → Option ℚ
  | .num q => some q
  | _ => none

/-- `QuestionnaireCompletion.scoring_questionnaires`: the
`{Stage}_{Instrument}_Total` cell produced for one participant by every
branch whose total is `numeric_cols.sum(axis=1)` after
`pd.to_numeric(errors='coerce')` — the generic branch (WEMWBS, GAD7,
PHQ9, RRS) as well as the VISQ and BIS `_Total` columns and all subscale
columns, which use the same row-wise pandas sum. -/
def questionnaireTotal (items : List Cell) : Option ℚ :=
  some (pdRowSum (items.map toNumeric))

/-- The ASQ recode applied per cell before summation:
`0 if x in [1, 2] else (1 if x in [3, 4] else x)` — a missing value stays
missing. -/
def asqRecode : Option ℚ → Option ℚ
  | some x => if x = 1 ∨ x = 2 then some 0 else if x = 3 ∨ x = 4 then some 1 else some x
  | none => none

/-- The ASQ `_Total` cell: recode each item, then `sum(axis=1)`. -/
def asqTotal (items : List Cell) : Option ℚ :=
  some (pdRowSum (items.map (fun c => asqRecode (toNumeric c))))

/-- pandas `mean(axis=1)` over one NIEQ item pair, skipping missing
values: both present gives the average, one present gives that value,
both missing gives missing. -/
def pdPairMean : Option ℚ → Option ℚ → Option ℚ
  | some a, some b => some ((a + b) / 2)
  | some a, none => some a
  | none, some b => some b
  | none, none => none

/-- Elementwise pandas Series `+` as used by the Python built-in `sum`
over the five pair-mean Series: a missing operand makes the result
missing. -/
def seriesAdd : Option ℚ → Option ℚ → Option ℚ
  | some a, some b => some (a + b)
  | _, _ => none

/-- The NIEQ branch of `scoring_questionnaires`: the `_Total` cell is
`sum(numeric_cols[[col1, col2]].mean(axis=1) for col1, col2 in
nieq_pairs)` — Python `sum` starting from `0`, adding the five pair-mean
values with missing-propagating Series addition. -/
def nieqTotal (pairs : List (Cell × Cell)) : Option ℚ :=
  (pairs.map (fun pr => pdPairMean (toNumeric pr.1) (toNumeric pr.2))).foldl seriesAdd (some 0)

/-- Python `==` between two answers of a questionnaire row: `NaN`
(modelled as `none`) compares unequal to everything, itself included. -/
def answersEq : Option ℤ → Option ℤ → Bool
  | some x, some y => decide (x = y)
  | _, _ => false

/-- The loop of `SuspiciousUsersChecks.has_consecutive_answers`:
`count` and `last` are the running state (`count`, `last_answer`). -/
def hasConsecutiveAux (t : Nat) : List (Option ℤ) → Nat → Option ℤ → Bool
  | [], _, _ => false
  | a :: rest, count, last =>
    cond (answersEq a last)
      (cond (decide (t < count + 1)) true (hasConsecutiveAux t rest (count + 1) a))
      (hasConsecutiveAux t rest 1 a)

/-- `SuspiciousUsersChecks.has_consecutive_answers(series, threshold)`. -/
def has_consecutive_answers (l : List (Option ℤ)) (t : Nat) : Bool :=
  hasConsecutiveAux t l 0 none

/-- The same-answer (zero-variance) flag for one stage × instrument block:
`nunique(axis=1) == 1` (pandas `nunique` skips missing values). -/
def sameAnswerFlag (items : List (Option ℤ)) : Bool :=
  decide ((items.filterMap id).dedup.length = 1)

/-- Declarative reading of the consecutive-run flag: somewhere in `l`
there is a run of more than `t` consecutive identical answers. -/
def existsLongRun (t : Nat) (l : List (Option ℤ)) : Prop :=
  ∃ v : ℤ, List.replicate (t + 1) (some v) <:+: l

/-- One row of the merged survey table as seen by `flag_ips`: the
participant identifier (the e-mail index) and one stage's IP column. -/
structure IPRow where
  email : String
  ip : Option String
deriving DecidableEq

/-- The allow-list of truncated IP prefixes (`accepted_ips`). -/
def accepted_ips : List String := ["0.0.0", "144.82.8"]

/-- The in-place column update at the top of `flag_ips`:
`fillna('0.0.0')` followed by truncation to the first three octets. -/
def processTable (merged : List IPRow) : List (String × String) :=
  merged.map (fun r => (r.email, processIP r.ip))

/-- The member e-mails of one truncated-IP group (`list(x.index)`). -/
def groupMembers (t : List (String × String)) (p : String) : List String :=
  (t.filter (fun r => decide (r.2 = p))).map (·.1)

/-- `len(x.index) > 1 and x.index.nunique() > 1` for one group. -/
def qualifies (t : List (String × String)) (p : String) : Bool :=
  decide (1 < (groupMembers t p).length) && decide (1 < (groupMembers t p).dedup.length)

/-- `ip_dict` after the allow-listed prefixes are deleted: each qualifying
truncated prefix mapped to its member list. -/
def ip_dict (t : List (String × String)) : List (String × List String) :=
  (((t.map (·.2)).dedup).filter
      (fun p => qualifies t p && decide (p ∉ accepted_ips))).map
    (fun p => (p, groupMembers t p))

/-- The `email_to_ip` dict comprehension: every member of every kept group
(with more than one distinct member) mapped back to its group's prefix. -/
def email_to_ip (t : List (String × String)) : List (String × String) :=
  (ip_dict t).flatMap
    (fun pe => if 1 < pe.2.dedup.length then pe.2.map (fun e => (e, pe.1)) else [])

/-- `Flagged_{ip}` for one participant: membership in `email_to_ip`. -/
def flaggedIP (t : List (String × String)) (e : String) : Bool :=
  (dictLookup (email_to_ip t) e).isSome

/-- `Flagged_{ip}_Emails`: `ip_dict[email_to_ip[email]]` when flagged,
else the empty list. -/
def flaggedIPEmails (t : List (String × String)) (e : String) : List String :=
  match dictLookup (email_to_ip t) e with
  | some p => (dictLookup (ip_dict t) p).getD []
  | none => []

/-- `Flagged_{ip}_Count`: the length of the stored e-mail list. -/
def flaggedIPCount (t : List (String × String)) (e : String) : Nat :=
  (flaggedIPEmails t e).length

/-- `SuspiciousUsersChecks.flag_ips` for one stage's IP column: the first
component is the caller's merged table after the call (the IP column is
mutated in place before grouping), the second the per-participant flag
records (flag, co-flagged e-mail list, count). -/
def flag_ips (merged : List IPRow) : List IPRow × List (String × Bool × List String × Nat) :=
  let t := processTable merged
  (t.map (fun r => { email := r.1, ip := some r.2 }),
   t.map (fun r => (r.1, flaggedIP t r.1, flaggedIPEmails t r.1, flaggedIPCount t r.1)))

/-- pandas `Series.quantile(q)` with the default linear interpolation,
over the non-missing values. -/
def quantile (vals : List ℚ) (q : ℚ) : Option ℚ :=
  match vals with
  | [] => none
  | _ =>
    let s := vals.insertionSort (· ≤ ·)
    let h : ℚ := q * ((vals.length : ℚ) - 1)
    let lo : Nat := (⌊h⌋).toNat
    let hi : Nat := (⌈h⌉).toNat
    some (s.getD lo 0 + (s.getD hi 0 - s.getD lo 0) * (h - (lo : ℚ)))

/-- `SuspiciousUsersChecks.remove_outliers` applied to the non-missing
duration values: keep the values inside `[Q1 - 1.5*IQR, Q3 + 1.5*IQR]`. -/
def remove_outliers (vals : List ℚ) : List ℚ :=
  match quantile vals (1/4 : ℚ), quantile vals (3/4 : ℚ) with
  | some q1, some q3 =>
    vals.filter (fun v =>
      decide (q1 - 1.5 * (q3 - q1) ≤ v) && decide (v ≤ q3 + 1.5 * (q3 - q1)))
  | _, _ => []

/-- pandas `Series.mean()`: missing for an empty series. -/
def listMean (l : List ℚ) : Option ℚ :=
  match l with
  | [] => none
  | _ => some (l.sum / (l.length : ℚ))

/-- `SuspiciousUsersChecks.flag_duration` for one participant of one
stage: `col` is the whole duration column, `d` the participant's own raw
duration; the flag is `d < 0.4 * mean(remove_outliers(col))`. -/
def flag_duration_row (col : List (Option ℚ)) (d : Option ℚ) : Bool :=
  match listMean (remove_outliers (col.filterMap id)), d with
  | some m, some dv => decide (dv < 0.4 * m)
  | _, _ => false

/-- The spec's reading of the short-duration flag, written from its own
words: the participant's raw duration is strictly below 40% of the mean
duration computed after excluding outliers by the IQR rule (values outside
`[Q1 - 1.5*IQR, Q3 + 1.5*IQR]` removed before taking the mean). -/
def spec_short_duration (col : List (Option ℚ)) (d : Option ℚ) : Prop :=
  ∃ dv m q1 q3,
    d = some dv ∧
    quantile (col.filterMap id) (1/4 : ℚ) = some q1 ∧
    quantile (col.filterMap id) (3/4 : ℚ) = some q3 ∧
    listMean ((col.filterMap id).filter
        (fun v => decide (q1 - 1.5 * (q3 - q1) ≤ v ∧ v ≤ q3 + 1.5 * (q3 - q1)))) = some m ∧
    dv < (40 / 100 : ℚ) * m

/-- One row of `11_journals_qualified_for_analysis.csv` as consumed by
`apply_final_filters` (only the columns the filter touches, plus
`StudyGroup`/`Timestamp`/`StudyOutcome` as carried-forward columns). -/
structure Row where
  ParticipantID : Option String
  B_WEMWBS_Total : Option ℚ
  E_WEMWBS_Total : Option ℚ
  B_GAD7_Total : Option ℚ
  E_GAD7_Total : Option ℚ
  B_PHQ9_Total : Option ℚ
  E_PHQ9_Total : Option ℚ
  JournalAnonymised : Option String
  EntryType : Option String
  StudyGroup : Option String
  Timestamp : Option ℚ
  StudyOutcome : Option String
deriving DecidableEq

/-- `FinalFilterConfig` (`required_cols` is fixed to its default, the six
baseline/exit totals, which every claim under study uses). -/
structure FinalFilterConfig where
  enforce_nonzero_wemwbs : Bool
  min_word_count : Nat
  exclude_type : Option String
  min_entries_per_participant : Nat
  eligible_only : Bool
deriving DecidableEq

/-- The default `FinalFilterConfig()`. -/
def defaultConfig : FinalFilterConfig :=
  { enforce_nonzero_wemwbs := true
    min_word_count := 4
    exclude_type := some "Summary"
    min_entries_per_participant := 6
    eligible_only := true }

/-- `df['JournalAnonymised'].str.split().str.len()` for one row. -/
def wordCountRow (r : Row) : Option Nat :=
  r.JournalAnonymised.map (fun s => (pyWords s).length)

/-- Step 1: `dropna(subset=required_cols)`. -/
def step1 (df : List Row) : List Row :=
  df.filter (fun r =>
    r.B_WEMWBS_Total.isSome && r.E_WEMWBS_Total.isSome && r.B_GAD7_Total.isSome &&
    r.E_GAD7_Total.isSome && r.B_PHQ9_Total.isSome && r.E_PHQ9_Total.isSome)

/-- Step 2: `(df['B_WEMWBS_Total'] != 0) & (df['E_WEMWBS_Total'] != 0)`
(pandas `!=` keeps missing values; step 1 has already removed them). -/
def step2 (cfg : FinalFilterConfig) (df : List Row) : List Row :=
  if cfg.enforce_nonzero_wemwbs then
    df.filter (fun r =>
      !(decide (r.B_WEMWBS_Total = some 0)) && !(decide (r.E_WEMWBS_Total = some 0)))
  else df

/-- Step 3: `df['WordCount'] >= min_word_count` (missing content gives a
missing word count, and a missing comparison is false). -/
def step3 (cfg : FinalFilterConfig) (df : List Row) : List Row :=
  df.filter (fun r =>
    match wordCountRow r with
    | some n => decide (cfg.min_word_count ≤ n)
    | none => false)

/-- Step 4: `df['Type'] != exclude_type` (a missing `Type` is kept). -/
def step4 (cfg : FinalFilterConfig) (df : List Row) : List Row :=
  match cfg.exclude_type with
  | some ty => df.filter (fun r => !(decide (r.EntryType = some ty)))
  | none => df

/-- `groupby('ParticipantID')['ParticipantID'].transform('count')` for one
row: missing for a missing key (pandas `groupby` excludes missing keys). -/
def entryCount (df : List Row) (r : Row) : Option Nat :=
  r.ParticipantID.map (fun p => df.countP (fun x => decide (x.ParticipantID = some p)))

/-- Step 5: `df['EntryCount'] >= min_entries_per_participant` (a missing
count compares false). -/
def step5 (cfg : FinalFilterConfig) (df : List Row) : List Row :=
  df.filter (fun r =>
    match entryCount df r with
    | some n => decide (cfg.min_entries_per_participant ≤ n)
    | none => false)

/-- The rows of one participant's group, in table order. -/
def groupRows (df : List Row) (p : String) : List Row :=
  df.filter (fun r => decide (r.ParticipantID = some p))

/-- The row `groupby('ParticipantID').first()` builds for participant `p`:
per column, the first non-null value within the group. -/
def participantRow (df : List Row) (p : String) : Row :=
  let g := groupRows df p
  { ParticipantID := some p
    B_WEMWBS_Total := firstSome (g.map (·.B_WEMWBS_Total))
    E_WEMWBS_Total := firstSome (g.map (·.E_WEMWBS_Total))
    B_GAD7_Total := firstSome (g.map (·.B_GAD7_Total))
    E_GAD7_Total := firstSome (g.map (·.E_GAD7_Total))
    B_PHQ9_Total := firstSome (g.map (·.B_PHQ9_Total))
    E_PHQ9_Total := firstSome (g.map (·.E_PHQ9_Total))
    JournalAnonymised := firstSome (g.map (·.JournalAnonymised))
    EntryType := firstSome (g.map (·.EntryType))
    StudyGroup := firstSome (g.map (·.StudyGroup))
    Timestamp := firstSome (g.map (·.Timestamp))
    StudyOutcome := firstSome (g.map (·.StudyOutcome)) }

/-- The distinct non-missing participant identifiers of a table, in
first-occurrence order (pandas sorts them; no property below depends on
the order of the groups). -/
def surviving (df : List Row) : List String :=
  (df.filterMap (·.ParticipantID)).dedup

/-- Step 6: `groupby('ParticipantID').first().reset_index()`. -/
def step6 (df : List Row) : List Row :=
  (surviving df).map (participantRow df)

/-- `df_participant['ParticipantID'].map(study_outcomes)` for one row. -/
def outcomeLookup (outcomes : List (String × String)) (p : String) : Option String :=
  dictLookup outcomes p

/-- Step 7: assign `StudyOutcome` and keep `{Eligible, Insufficient}`;
skipped entirely when the outcome mapping is empty (file absent) or when
`eligible_only` is off. -/
def step7 (cfg : FinalFilterConfig) (outcomes : List (String × String))
    (dfp : List Row) : List Row :=
  if cfg.eligible_only then
    if outcomes.isEmpty then dfp
    else
      (dfp.map (fun r =>
          { r with StudyOutcome := r.ParticipantID.bind (outcomeLookup outcomes) })).filter
        (fun r => decide (r.StudyOutcome = some "Eligible" ∨ r.StudyOutcome = some "Insufficient"))
  else dfp

/-- The entry-level table surviving stages 1-4. -/
def stage4Out (cfg : FinalFilterConfig) (df : List Row) : List Row :=
  step4 cfg (step3 cfg (step2 cfg (step1 df)))

/-- `apply_final_filters(df, config)`, with the outcome mapping that
`load_study_outcomes` returned passed explicitly (empty when the file is
absent). -/
def apply_final_filters (cfg : FinalFilterConfig) (outcomes : List (String × String))
    (df : List Row) : List Row :=
  step7 cfg outcomes (step6 (step5 cfg (stage4Out cfg df)))

/-- `Change_WEMWBS = E_WEMWBS_Total - B_WEMWBS_Total` (from `main`). -/
def Change_WEMWBS (r : Row) : Option ℚ :=
  match r.E_WEMWBS_Total, r.B_WEMWBS_Total with
  | some e, some b => some (e - b)
  | _, _ => none

/-- `Change_GAD7 = E_GAD7_Total - B_GAD7_Total` (from `main`). -/
def Change_GAD7 (r : Row) : Option ℚ :=
  match r.E_GAD7_Total, r.B_GAD7_Total with
  | some e, some b => some (e - b)
  | _, _ => none

/-- `Change_PHQ9 = E_PHQ9_Total - B_PHQ9_Total` (from `main`). -/
def Change_PHQ9 (r : Row) : Option ℚ :=
  match r.E_PHQ9_Total, r.B_PHQ9_Total with
  | some e, some b => some (e - b)
  | _, _ => none

/-! ## Helper lemmas -/

lemma pdRowSum_eq_sum_filterMap (l : List (Option ℚ)) :
    pdRowSum l = (l.filterMap id).sum := by
  induction l with
  | nil => rfl
  | cons a rest ih => cases a <;> simp [pdRowSum, ih]

lemma seriesAdd_foldl_none (l : List (Option ℚ)) : l.foldl seriesAdd none = none := by
  induction l with
  | nil => rfl
  | cons x rest ih =>
    rw [List.foldl_cons]
    cases x <;> exact ih

lemma seriesAdd_foldl_eq_none_iff (l : List (Option ℚ)) (s : ℚ) :
    l.foldl seriesAdd (some s) = none ↔ none ∈ l := by
  induction l generalizing s with
  | nil => simp
  | cons x rest ih =>
    cases x with
    | none =>
      rw [List.foldl_cons]
      simp [seriesAdd, seriesAdd_foldl_none]
    | some a =>
      rw [List.foldl_cons]
      show rest.foldl seriesAdd (some (s + a)) = none ↔ _
      rw [ih]
      simp

lemma pdPairMean_eq_none_iff (a b : Option ℚ) :
    pdPairMean a b = none ↔ a = none ∧ b = none := by
  cases a <;> cases b <;> simp [pdPairMean]

lemma answersEq_eq_true_iff (a b : Option ℤ) :
    answersEq a b = true ↔ ∃ v : ℤ, a = some v ∧ b = some v := by
  cases a <;> cases b <;> simp [answersEq, eq_comm]

lemma answersEq_none_right (b : Option ℤ) : answersEq b none = false := by
  cases b <;> rfl

lemma existsLongRun_cons (t : Nat) (b : Option ℤ) (rest : List (Option ℤ)) :
    existsLongRun t (b :: rest) ↔
      (∃ v : ℤ, b = some v ∧ List.replicate t (some v) <+: rest) ∨ existsLongRun t rest := by
  unfold existsLongRun
  constructor
  · rintro ⟨v, hinf⟩
    rcases List.infix_cons_iff.1 hinf with hpre | hinf'
    · left
      rw [List.replicate_succ] at hpre
      rcases List.cons_prefix_cons.1 hpre with ⟨hb, hrest⟩
      exact ⟨v, hb.symm, hrest⟩
    · right
      exact ⟨v, hinf'⟩
  · rintro (⟨v, rfl, hpre⟩ | ⟨v, hinf⟩)
    · refine ⟨v, List.infix_cons_iff.2 (Or.inl ?_)⟩
      rw [List.replicate_succ]
      exact List.cons_prefix_cons.2 ⟨rfl, hpre⟩
    · exact ⟨v, List.infix_cons_iff.2 (Or.inr hinf)⟩

lemma freshRunEquiv (t : Nat) (x : Option ℤ) (rest : List (Option ℤ)) :
    (∃ k, k ≤ rest.length ∧ t < 1 + k ∧ List.replicate k x <+: rest) ↔
      List.replicate t x <+: rest := by
  constructor
  · rintro ⟨k, hk, hlt, hpre⟩
    have htrep : List.replicate t x <+: List.replicate k x := by
      rw [show k = t + (k - t) by omega, List.replicate_add]
      exact List.prefix_append _ _
    exact htrep.trans hpre
  · intro hpre
    exact ⟨t, by simpa using hpre.length_le, by omega, hpre⟩

lemma hasConsecutiveAux_char (t : Nat) (ht : 1 ≤ t) :
    ∀ l : List (Option ℤ),
      (∀ c : Nat, (hasConsecutiveAux t l c none = true ↔ existsLongRun t l)) ∧
      (∀ (c : Nat) (a : ℤ), 1 ≤ c → c ≤ t →
        (hasConsecutiveAux t l c (some a) = true ↔
          (∃ k, k ≤ l.length ∧ t < c + k ∧ List.replicate k (some a) <+: l) ∨
            existsLongRun t l)) := by
  intro l
  induction l with
  | nil =>
    constructor
    · intro c
      constructor
      · intro hfalse
        simp [hasConsecutiveAux] at hfalse
      · rintro ⟨v, hinf⟩
        rw [List.infix_nil] at hinf
        have hl := congrArg List.length hinf
        simp at hl
    · intro c a _hc hct
      constructor
      · intro hfalse
        simp [hasConsecutiveAux] at hfalse
      · rintro (⟨k, hk, hlt, -⟩ | ⟨v, hinf⟩)
        · simp only [List.length_nil] at hk
          omega
        · rw [List.infix_nil] at hinf
          have hl := congrArg List.length hinf
          simp at hl
  | cons b rest ih =>
    obtain ⟨ihNone, ihSome⟩ := ih
    constructor
    · intro c
      simp only [hasConsecutiveAux, answersEq_none_right, Bool.cond_false]
      cases b with
      | none =>
        rw [ihNone 1, existsLongRun_cons]
        simp
      | some bv =>
        rw [ihSome 1 bv le_rfl ht, freshRunEquiv, existsLongRun_cons]
        simp
    · intro c a hc hct
      cases heq : answersEq b (some a) with
      | true =>
        obtain ⟨v, hbv, hav⟩ := (answersEq_eq_true_iff _ _).1 heq
        injection hav with hva
        subst hva
        subst hbv
        simp only [hasConsecutiveAux, heq, Bool.cond_true]
        by_cases hc1 : t < c + 1
        · rw [decide_eq_true hc1]
          simp only [Bool.cond_true, true_iff]
          left
          refine ⟨1, by simp, by omega, ?_⟩
          rw [List.replicate_succ, List.replicate_zero]
          exact List.cons_prefix_cons.2 ⟨rfl, List.nil_prefix⟩
        · rw [decide_eq_false hc1]
          simp only [Bool.cond_false]
          rw [ihSome (c + 1) a (by omega) (by omega), existsLongRun_cons]
          constructor
          · rintro (⟨k, hk, hlt, hpre⟩ | hrun)
            · left
              refine ⟨k + 1, by simpa using Nat.succ_le_succ hk, by omega, ?_⟩
              rw [List.replicate_succ]
              exact List.cons_prefix_cons.2 ⟨rfl, hpre⟩
            · right
              right
              exact hrun
          · rintro (⟨k, hk, hlt, hpre⟩ | ⟨v, hv, hpre⟩ | hrun)
            · rcases k with _ | k'
              · omega
              · rw [List.replicate_succ] at hpre
                rcases List.cons_prefix_cons.1 hpre with ⟨-, hpre'⟩
                left
                refine ⟨k', ?_, by omega, hpre'⟩
                simpa using hk
            · injection hv with hv'
              subst hv'
              left
              exact ⟨t, by simpa using hpre.length_le, by omega, hpre⟩
            · right
              exact hrun
      | false =>
        simp only [hasConsecutiveAux, heq, Bool.cond_false]
        cases b with
        | none =>
          rw [ihNone 1, existsLongRun_cons]
          constructor
          · intro hrun
            right
            right
            exact hrun
          · rintro (⟨k, hk, hlt, hpre⟩ | ⟨v, hv, -⟩ | hrun)
            · rcases k with _ | k'
              · omega
              · rw [List.replicate_succ] at hpre
                have hhead := (List.cons_prefix_cons.1 hpre).1
                cases hhead
            · cases hv
            · exact hrun
        | some bv =>
          have hba : ¬ (bv = a) := by
            intro hcontra
            subst hcontra
            simp [answersEq] at heq
          rw [ihSome 1 bv le_rfl ht, freshRunEquiv, existsLongRun_cons]
          constructor
          · rintro (hpre | hrun)
            · right
              left
              exact ⟨bv, rfl, hpre⟩
            · right
              right
              exact hrun
          · rintro (⟨k, hk, hlt, hpre⟩ | ⟨v, hv, hpre⟩ | hrun)
            · rcases k with _ | k'
              · omega
              · rw [List.replicate_succ] at hpre
                have hhead := (List.cons_prefix_cons.1 hpre).1
                injection hhead with hhead'
                exact absurd hhead'.symm hba
            · injection hv with hv'
              subst hv'
              left
              exact hpre
            · right
              exact hrun

lemma has_consecutive_answers_iff (l : List (Option ℤ)) (t : Nat) (ht : 1 ≤ t) :
    has_consecutive_answers l t = true ↔ existsLongRun t l :=
  (hasConsecutiveAux_char t ht l).1 0

/-- The 15-item example: the same answer at positions 1-11, a different
one at positions 12-15. -/
def ex15 : List (Option ℤ) :=
  List.replicate 11 (some 1) ++ List.replicate 4 (some 2)

/-! ## Claims -/

/-- Claim C1, counterexample: with items `[3, 4, missing]` the produced
`Total` is the partial sum `7`, not missing — pandas `sum(axis=1)` skips
missing values, so a block with a missing item does NOT get a missing
total, contradicting the claim as stated. -/
theorem C1_counterexample :
    toNumeric Cell.empty = none ∧
    questionnaireTotal [Cell.num 3, Cell.num 4, Cell.empty] = some 7 ∧
    questionnaireTotal [Cell.num 3, Cell.num 4, Cell.empty] ≠ none := by
  refine ⟨rfl, ?_, by simp [questionnaireTotal]⟩
  norm_num [questionnaireTotal, pdRowSum, toNumeric]

/-- Claim C1 (amended): with at least one item missing (or non-numeric,
hence coerced to missing) in a block, every `_Total` computed by pandas
`sum(axis=1)` — the generic branch and the VISQ and BIS totals — is the
sum of the present items only, a partial sum, never missing; the ASQ
total is likewise the never-missing partial sum of the recoded present
items; only the NIEQ total can be missing, and it is missing exactly
when some item pair has both items missing — a pair with one present
item contributes that value as its pair mean, so NIEQ is still not the
claimed all-or-missing behaviour. -/
theorem C1_partial_sum :
    (∀ items : List Cell, (∃ c ∈ items, toNumeric c = none) →
      questionnaireTotal items = some ((items.map toNumeric).filterMap id).sum ∧
        questionnaireTotal items ≠ none) ∧
    (∀ items : List Cell, (∃ c ∈ items, toNumeric c = none) →
      asqTotal items =
          some ((items.map (fun c => asqRecode (toNumeric c))).filterMap id).sum ∧
        asqTotal items ≠ none) ∧
    (∀ pairs : List (Cell × Cell),
      (nieqTotal pairs = none ↔
        ∃ pr ∈ pairs, toNumeric pr.1 = none ∧ toNumeric pr.2 = none)) := by
  refine ⟨?_, ?_, ?_⟩
  · intro items _h
    constructor
    · simp [questionnaireTotal, pdRowSum_eq_sum_filterMap]
    · simp [questionnaireTotal]
  · intro items _h
    constructor
    · simp [asqTotal, pdRowSum_eq_sum_filterMap]
    · simp [asqTotal]
  · intro pairs
    unfold nieqTotal
    rw [seriesAdd_foldl_eq_none_iff]
    constructor
    · intro h
      rcases List.mem_map.1 h with ⟨pr, hpr, heq⟩
      exact ⟨pr, hpr, (pdPairMean_eq_none_iff _ _).1 heq⟩
    · rintro ⟨pr, hpr, h1, h2⟩
      exact List.mem_map.2 ⟨pr, hpr, (pdPairMean_eq_none_iff _ _).2 ⟨h1, h2⟩⟩

/-- Witness for `C1_partial_sum`: the generic and ASQ totals at the items
`[3, 4, missing]`, and the NIEQ total for a block whose second item pair
is fully missing. -/
theorem C1_partial_sum_witness :
    (∃ c ∈ [Cell.num 3, Cell.num 4, Cell.empty], toNumeric c = none) ∧
    (questionnaireTotal [Cell.num 3, Cell.num 4, Cell.empty] =
        some ((([Cell.num 3, Cell.num 4, Cell.empty]).map toNumeric).filterMap id).sum ∧
      questionnaireTotal [Cell.num 3, Cell.num 4, Cell.empty] ≠ none) ∧
    (asqTotal [Cell.num 3, Cell.num 4, Cell.empty] =
        some ((([Cell.num 3, Cell.num 4, Cell.empty]).map
          (fun c => asqRecode (toNumeric c))).filterMap id).sum ∧
      asqTotal [Cell.num 3, Cell.num 4, Cell.empty] ≠ none) ∧
    (nieqTotal [(Cell.num 2, Cell.num 4), (Cell.empty, Cell.empty)] = none ↔
      ∃ pr ∈ [(Cell.num 2, Cell.num 4), (Cell.empty, Cell.empty)],
        toNumeric pr.1 = none ∧ toNumeric pr.2 = none) :=
  ⟨by decide, C1_partial_sum.1 _ (by decide), C1_partial_sum.2.1 _ (by decide),
   C1_partial_sum.2.2 _⟩

/-- Claim C9: `flag_ips` mutates the merged table in place — after the
call every IP value has had missing replaced by `'0.0.0'` and has been
truncated to its first three octets; truncation is not injective (two
distinct full addresses share an image), so the four-octet addresses are
no longer recoverable from the table passed in. -/
theorem C9_flag_ips_mutation (merged : List IPRow) :
    (flag_ips merged).1 =
      merged.map (fun r => { email := r.email, ip := some (truncIP (r.ip.getD "0.0.0")) }) ∧
    truncIP "10.0.0.5" = "10.0.0" ∧ truncIP "10.0.0.9" = "10.0.0" ∧
    ("10.0.0.5" : String) ≠ "10.0.0.9" := by
  refine ⟨?_, by decide, by decide, by decide⟩
  simp [flag_ips, processTable, processIP, List.map_map]

/-- Claim C7: the short-duration flag is true for a participant exactly
when their raw duration is strictly below 40% of the mean computed after
IQR-rule outlier exclusion. -/
lemma quantile_eq_none_iff (vals : List ℚ) (q : ℚ) :
    quantile vals q = none ↔ vals = [] := by
  cases vals <;> simp [quantile]

lemma remove_outliers_eq_of_some {vals : List ℚ} {q1 q3 : ℚ}
    (h1 : quantile vals (1/4 : ℚ) = some q1) (h3 : quantile vals (3/4 : ℚ) = some q3) :
    remove_outliers vals =
      vals.filter (fun v => decide (q1 - 1.5 * (q3 - q1) ≤ v ∧ v ≤ q3 + 1.5 * (q3 - q1))) := by
  unfold remove_outliers
  rw [h1, h3]
  simp

theorem C7_short_duration (col : List (Option ℚ)) (d : Option ℚ) :
    flag_duration_row col d = true ↔ spec_short_duration col d := by
  have h04 : (0.4 : ℚ) = 40 / 100 := by norm_num
  cases hq1 : quantile (col.filterMap id) (1/4 : ℚ) with
  | none =>
    have hnil : col.filterMap id = [] := (quantile_eq_none_iff _ _).1 hq1
    have hfd : flag_duration_row col d = false := by
      unfold flag_duration_row
      rw [hnil]
      cases d <;> rfl
    rw [hfd]
    constructor
    · intro hfalse
      exact absurd hfalse (by simp)
    · rintro ⟨dv, m, q1, q3, -, hq1', -, -, -⟩
      rw [hq1] at hq1'
      cases hq1'
  | some q1 =>
    cases hq3 : quantile (col.filterMap id) (3/4 : ℚ) with
    | none =>
      have hnil : col.filterMap id = [] := (quantile_eq_none_iff _ _).1 hq3
      rw [hnil] at hq1
      simp [quantile] at hq1
    | some q3 =>
      have hro := remove_outliers_eq_of_some hq1 hq3
      unfold flag_duration_row
      rw [hro]
      cases hm : listMean ((col.filterMap id).filter
          (fun v => decide (q1 - 1.5 * (q3 - q1) ≤ v ∧ v ≤ q3 + 1.5 * (q3 - q1)))) with
      | none =>
        constructor
        · intro hfalse
          cases d <;> simp at hfalse
        · rintro ⟨dv, m, q1', q3', -, hq1', hq3', hm', -⟩
          rw [hq1] at hq1'
          injection hq1' with e1
          subst e1
          rw [hq3] at hq3'
          injection hq3' with e3
          subst e3
          rw [hm] at hm'
          cases hm'
      | some m =>
        cases d with
        | none =>
          constructor
          · intro hfalse
            simp at hfalse
          · rintro ⟨dv, m', q1', q3', hdv, -, -, -, -⟩
            cases hdv
        | some dv =>
          simp only [decide_eq_true_eq]
          constructor
          · intro hlt
            refine ⟨dv, m, q1, q3, rfl, hq1, hq3, hm, ?_⟩
            rw [← h04]
            exact hlt
          · rintro ⟨dv', m', q1', q3', hdv, hq1', hq3', hm', hlt⟩
            injection hdv with ed
            subst ed
            rw [hq1] at hq1'
            injection hq1' with e1
            subst e1
            rw [hq3] at hq3'
            injection hq3' with e3
            subst e3
            rw [hm] at hm'
            injection hm' with em
            subst em
            rw [h04]
            exact hlt

lemma mem_step5_iff {cfg : FinalFilterConfig} {df : List Row} {r : Row} :
    r ∈ step5 cfg df ↔
      r ∈ df ∧ ∃ n, entryCount df r = some n ∧ cfg.min_entries_per_participant ≤ n := by
  unfold step5
  rw [List.mem_filter]
  constructor
  · rintro ⟨hmem, hcond⟩
    refine ⟨hmem, ?_⟩
    cases hec : entryCount df r with
    | none =>
      rw [hec] at hcond
      cases hcond
    | some n =>
      rw [hec] at hcond
      exact ⟨n, rfl, by simpa using hcond⟩
  · rintro ⟨hmem, n, hec, hn⟩
    refine ⟨hmem, ?_⟩
    rw [hec]
    simpa using hn

lemma pid_isSome_of_mem_step5 {cfg : FinalFilterConfig} {df : List Row} {r : Row}
    (h : r ∈ step5 cfg df) : r.ParticipantID.isSome := by
  rcases mem_step5_iff.1 h with ⟨-, n, hec, -⟩
  unfold entryCount at hec
  cases hp : r.ParticipantID with
  | none =>
    rw [hp] at hec
    cases hec
  | some p => rfl

lemma step6_map_pid (df : List Row) :
    (step6 df).map (·.ParticipantID) = (surviving df).map some := by
  unfold step6
  rw [List.map_map]
  rfl

lemma step6_pid_nodup (df : List Row) : ((step6 df).map (·.ParticipantID)).Nodup := by
  rw [step6_map_pid]
  exact (List.nodup_dedup _).map (Option.some_injective _)

lemma step7_map_pid_sublist (cfg : FinalFilterConfig) (outcomes : List (String × String))
    (dfp : List Row) :
    ((step7 cfg outcomes dfp).map (·.ParticipantID)).Sublist (dfp.map (·.ParticipantID)) := by
  unfold step7
  split
  · split
    · exact List.Sublist.refl _
    · have h1 : ((dfp.map (fun r =>
          { r with StudyOutcome := r.ParticipantID.bind (outcomeLookup outcomes) })).filter
            (fun r => decide (r.StudyOutcome = some "Eligible" ∨
              r.StudyOutcome = some "Insufficient"))).Sublist
          (dfp.map (fun r =>
            { r with StudyOutcome := r.ParticipantID.bind (outcomeLookup outcomes) })) :=
        List.filter_sublist _
      have h2 := h1.map (·.ParticipantID)
      rw [List.map_map] at h2
      exact h2
  · exact List.Sublist.refl _

lemma applyFF_pid_nodup (cfg : FinalFilterConfig) (outcomes : List (String × String))
    (df : List Row) :
    ((apply_final_filters cfg outcomes df).map (·.ParticipantID)).Nodup :=
  (step7_map_pid_sublist cfg outcomes _).nodup (step6_pid_nodup _)

lemma applyFF_pid_isSome {cfg : FinalFilterConfig} {outcomes : List (String × String)}
    {df : List Row} {r : Row} (h : r ∈ apply_final_filters cfg outcomes df) :
    r.ParticipantID.isSome := by
  have h1 : r.ParticipantID ∈ (apply_final_filters cfg outcomes df).map (·.ParticipantID) :=
    List.mem_map_of_mem _ h
  have h2 := (step7_map_pid_sublist cfg outcomes _).subset h1
  rw [step6_map_pid] at h2
  rcases List.mem_map.1 h2 with ⟨p, -, hp⟩
  rw [← hp]
  rfl

lemma countP_le_one_of_map_nodup :
    ∀ {l : List Row}, ((l.map (·.ParticipantID)).Nodup) →
      ∀ p : String, l.countP (fun x => decide (x.ParticipantID = some p)) ≤ 1 := by
  intro l
  induction l with
  | nil =>
    intro _ p
    simp
  | cons r rest ih =>
    intro hnd p
    rw [List.map_cons, List.nodup_cons] at hnd
    obtain ⟨hnotin, hnd'⟩ := hnd
    rw [List.countP_cons]
    by_cases hp : r.ParticipantID = some p
    · have hz : rest.countP (fun x => decide (x.ParticipantID = some p)) = 0 := by
        rw [List.countP_eq_zero]
        intro x hx
        simp only [decide_eq_true_eq]
        intro hxp
        exact hnotin (by rw [hp, ← hxp]; exact List.mem_map_of_mem _ hx)
      simp [hp, hz]
    · simpa [hp] using ih hnd' p

lemma stage4Out_sublist (cfg : FinalFilterConfig) (df : List Row) :
    (stage4Out cfg df).Sublist df := by
  have h1 : (step1 df).Sublist df := List.filter_sublist _
  have h2 : (step2 cfg (step1 df)).Sublist (step1 df) := by
    unfold step2
    split
    · exact List.filter_sublist _
    · exact List.Sublist.refl _
  have h3 : (step3 cfg (step2 cfg (step1 df))).Sublist (step2 cfg (step1 df)) :=
    List.filter_sublist _
  have h4 : (stage4Out cfg df).Sublist (step3 cfg (step2 cfg (step1 df))) := by
    unfold stage4Out step4
    split
    · exact List.filter_sublist _
    · exact List.Sublist.refl _
  exact ((h4.trans h3).trans h2).trans h1

lemma step5_eq_nil_of_nodup {cfg : FinalFilterConfig}
    (hmin : 1 < cfg.min_entries_per_participant) {l : List Row}
    (hnd : (l.map (·.ParticipantID)).Nodup) :
    step5 cfg (stage4Out cfg l) = [] := by
  have hnd4 : ((stage4Out cfg l).map (·.ParticipantID)).Nodup :=
    ((stage4Out_sublist cfg l).map _).nodup hnd
  unfold step5
  rw [List.filter_eq_nil_iff]
  intro r hr
  cases hp : r.ParticipantID with
  | none => simp [entryCount, hp]
  | some p =>
    have hle := countP_le_one_of_map_nodup hnd4 p
    simp only [entryCount, hp, Option.map_some']
    simp only [decide_eq_true_eq]
    omega

lemma step7_nil (cfg : FinalFilterConfig) (outcomes : List (String × String)) :
    step7 cfg outcomes [] = [] := by
  unfold step7
  split
  · split
    · rfl
    · rfl
  · rfl

/-- A journal-entry row with all six required totals present and
non-zero, five words of anonymised content, and a non-summary type. -/
def mkEntry (p : String) (ts : ℚ) (sg ty : Option String) : Row :=
  { ParticipantID := some p
    B_WEMWBS_Total := some 10
    E_WEMWBS_Total := some 20
    B_GAD7_Total := some 5
    E_GAD7_Total := some 3
    B_PHQ9_Total := some 6
    E_PHQ9_Total := some 2
    JournalAnonymised := some "today I wrote five words"
    EntryType := ty
    StudyGroup := sg
    Timestamp := some ts
    StudyOutcome := none }

/-- Six qualifying entries of one participant, timestamps ascending. -/
def entries6 : List Row :=
  [mkEntry "P1" 1 (some "A") (some "Entry"), mkEntry "P1" 2 (some "A") (some "Entry"),
   mkEntry "P1" 3 (some "A") (some "Entry"), mkEntry "P1" 4 (some "A") (some "Entry"),
   mkEntry "P1" 5 (some "A") (some "Entry"), mkEntry "P1" 6 (some "A") (some "Entry")]

/-- Five qualifying entries of `P5` followed by six of `P6`. -/
def entries56 : List Row :=
  [mkEntry "P5" 1 (some "A") (some "Entry"), mkEntry "P5" 2 (some "A") (some "Entry"),
   mkEntry "P5" 3 (some "A") (some "Entry"), mkEntry "P5" 4 (some "A") (some "Entry"),
   mkEntry "P5" 5 (some "A") (some "Entry"),
   mkEntry "P6" 6 (some "A") (some "Entry"), mkEntry "P6" 7 (some "A") (some "Entry"),
   mkEntry "P6" 8 (some "A") (some "Entry"), mkEntry "P6" 9 (some "A") (some "Entry"),
   mkEntry "P6" 10 (some "A") (some "Entry"), mkEntry "P6" 11 (some "A") (some "Entry")]

/-- Six qualifying entries of `P1` whose chronologically first row has a
missing `StudyGroup`, while the later rows carry `StudyGroup = "A"`. -/
def entriesC4 : List Row :=
  [mkEntry "P1" 1 none (some "Entry"), mkEntry "P1" 2 (some "A") (some "Entry"),
   mkEntry "P1" 3 (some "A") (some "Entry"), mkEntry "P1" 4 (some "A") (some "Entry"),
   mkEntry "P1" 5 (some "A") (some "Entry"), mkEntry "P1" 6 (some "A") (some "Entry")]

/-- An otherwise-qualifying row whose `ParticipantID` is missing. -/
def noPidEntry : Row :=
  { mkEntry "X" 0 (some "A") (some "Entry") with ParticipantID := none }

/-- `entries6` preceded by a row with a missing `ParticipantID`. -/
def entriesC10 : List Row := noPidEntry :: entries6

/-- Claim C2, counterexample: on a table of six qualifying entries of one
participant, the first application of the Final Filter keeps participant
`P1`, but the second application (outcome file unchanged) returns the
empty table — the participant set is not identical, so the filter is not
idempotent. -/
theorem C2_counterexample :
    (apply_final_filters defaultConfig [] entries6).map (·.ParticipantID) = [some "P1"] ∧
    apply_final_filters defaultConfig [] (apply_final_filters defaultConfig [] entries6) = [] := by
  decide

/-- Claim C2 (amended): applying the Final Filter (default configuration,
outcome mapping unchanged) to the participant-level table it produced
always yields the empty table — the first output has one row per
participant, so on the second pass every `EntryCount` is `1 < 6` and
stage 5 removes everyone.  The participant set is therefore preserved
only when the first application already produced no participants. -/
theorem C2_second_application_empty (outcomes : List (String × String)) (df : List Row) :
    apply_final_filters defaultConfig outcomes (apply_final_filters defaultConfig outcomes df) = [] := by
  have hnd := applyFF_pid_nodup defaultConfig outcomes df
  have h5 : step5 defaultConfig
      (stage4Out defaultConfig (apply_final_filters defaultConfig outcomes df)) = [] :=
    step5_eq_nil_of_nodup (by decide) hnd
  show step7 _ _ (step6 (step5 _ (stage4Out _ _))) = []
  rw [h5]
  rw [show step6 [] = [] from rfl]
  exact step7_nil _ _

/-- Claim C10: every row of the table returned by `apply_final_filters`
has a non-missing `ParticipantID`: rows with a missing identifier get a
missing entry count in stage 5 (pandas grouping excludes missing keys),
never satisfy the entry-count condition, and never yield a participant
row. -/
theorem C10_no_missing_pid (cfg : FinalFilterConfig) (outcomes : List (String × String))
    (df : List Row) :
    (∀ r ∈ step5 cfg (stage4Out cfg df), r.ParticipantID.isSome) ∧
    (∀ r ∈ apply_final_filters cfg outcomes df, r.ParticipantID.isSome) :=
  ⟨fun _ hr => pid_isSome_of_mem_step5 hr, fun _ hr => applyFF_pid_isSome hr⟩

/-- Witness for `C10_no_missing_pid` on a table containing a row with a
missing `ParticipantID`: the surviving participant row for `P1` has a
present identifier. -/
theorem C10_no_missing_pid_witness :
    (participantRow (step5 defaultConfig (stage4Out defaultConfig entriesC10)) "P1" ∈
        apply_final_filters defaultConfig [] entriesC10) ∧
    (participantRow (step5 defaultConfig (stage4Out defaultConfig entriesC10)) "P1").ParticipantID.isSome :=
  ⟨by decide, (C10_no_missing_pid defaultConfig [] entriesC10).2 _ (by decide)⟩

/-- Claim C3: in stage 5 (default configuration), every row surviving
stages 1-4 is non-summary with at least four words; `EntryCount` is the
number of that participant's rows surviving stages 1-4; and a participant
survives stage 5 exactly when that count is at least 6. -/
theorem C3_entry_count (df : List Row) :
    (∀ r ∈ stage4Out defaultConfig df,
      ¬ r.EntryType = some "Summary" ∧ ∃ n, wordCountRow r = some n ∧ 4 ≤ n) ∧
    (∀ r ∈ stage4Out defaultConfig df, ∀ p : String, r.ParticipantID = some p →
      entryCount (stage4Out defaultConfig df) r =
        some ((stage4Out defaultConfig df).countP (fun x => decide (x.ParticipantID = some p)))) ∧
    (∀ p : String,
      (∃ r ∈ step5 defaultConfig (stage4Out defaultConfig df), r.ParticipantID = some p) ↔
        6 ≤ (stage4Out defaultConfig df).countP (fun x => decide (x.ParticipantID = some p))) := by
  refine ⟨?_, ?_, ?_⟩
  · intro r hr
    have hr4 := List.mem_filter.1 hr
    obtain ⟨hr3, hcond4⟩ := hr4
    have hr3' := List.mem_filter.1 hr3
    obtain ⟨-, hcond3⟩ := hr3'
    constructor
    · simpa using hcond4
    · cases hwc : wordCountRow r with
      | none =>
        rw [hwc] at hcond3
        cases hcond3
      | some n =>
        rw [hwc] at hcond3
        exact ⟨n, rfl, by simpa using hcond3⟩
  · intro r _hr p hp
    unfold entryCount
    rw [hp]
    rfl
  · intro p
    constructor
    · rintro ⟨r, hr5, hp⟩
      rcases mem_step5_iff.1 hr5 with ⟨-, n, hec, hn⟩
      unfold entryCount at hec
      rw [hp] at hec
      simp only [Option.map_some', Option.some.injEq] at hec
      have hdef : defaultConfig.min_entries_per_participant = 6 := rfl
      rw [hdef] at hn
      omega
    · intro h6
      have hpos : 0 < (stage4Out defaultConfig df).countP
          (fun x => decide (x.ParticipantID = some p)) := by omega
      rcases List.countP_pos_iff.1 hpos with ⟨r, hr, hrp⟩
      have hp : r.ParticipantID = some p := of_decide_eq_true hrp
      refine ⟨r, ?_, hp⟩
      refine mem_step5_iff.2 ⟨hr, _, ?_, h6⟩
      unfold entryCount
      rw [hp]
      rfl

/-- Witness for `C3_entry_count`: with five qualifying entries for `P5`
and six for `P6`, participant `P6` survives stage 5 and `P5` does not. -/
theorem C3_entry_count_witness :
    (∃ r ∈ step5 defaultConfig (stage4Out defaultConfig entries56), r.ParticipantID = some "P6") ∧
    ¬ (∃ r ∈ step5 defaultConfig (stage4Out defaultConfig entries56), r.ParticipantID = some "P5") :=
  ⟨((C3_entry_count entries56).2.2 "P6").2 (by decide),
   fun h => absurd (((C3_entry_count entries56).2.2 "P5").1 h) (by decide)⟩

lemma firstSome_map_cons_of_isSome {α : Type} (f : Row → Option α) (r₀ : Row) (tl : List Row)
    (h : (f r₀).isSome) : firstSome ((r₀ :: tl).map f) = f r₀ := by
  unfold firstSome
  rw [List.map_cons]
  cases hf : f r₀ with
  | none =>
    rw [hf] at h
    cases h
  | some a => simp [List.filterMap_cons, hf]

/-- Claim C4 (amended): stage 6 produces exactly one row per surviving
participant, and each field of that row is the first non-missing value of
the corresponding column among that participant's surviving rows in the
upstream sort order (pandas `groupby(...).first()` skips nulls per
column).  In particular a field equals the chronologically first
surviving row's field whenever that row's value is present; when it is
missing, a later row's value is carried instead. -/
theorem C4_first_nonmissing (df : List Row) (p : String) (r : Row)
    (hr : r ∈ step6 (step5 defaultConfig (stage4Out defaultConfig df)))
    (hp : r.ParticipantID = some p) :
    (step6 (step5 defaultConfig (stage4Out defaultConfig df))).countP
        (fun x => decide (x.ParticipantID = some p)) = 1 ∧
    r = participantRow (step5 defaultConfig (stage4Out defaultConfig df)) p ∧
    (∀ r₀ tl, groupRows (step5 defaultConfig (stage4Out defaultConfig df)) p = r₀ :: tl →
      (r₀.B_WEMWBS_Total.isSome → r.B_WEMWBS_Total = r₀.B_WEMWBS_Total) ∧
      (r₀.E_WEMWBS_Total.isSome → r.E_WEMWBS_Total = r₀.E_WEMWBS_Total) ∧
      (r₀.B_GAD7_Total.isSome → r.B_GAD7_Total = r₀.B_GAD7_Total) ∧
      (r₀.E_GAD7_Total.isSome → r.E_GAD7_Total = r₀.E_GAD7_Total) ∧
      (r₀.B_PHQ9_Total.isSome → r.B_PHQ9_Total = r₀.B_PHQ9_Total) ∧
      (r₀.E_PHQ9_Total.isSome → r.E_PHQ9_Total = r₀.E_PHQ9_Total) ∧
      (r₀.JournalAnonymised.isSome → r.JournalAnonymised = r₀.JournalAnonymised) ∧
      (r₀.EntryType.isSome → r.EntryType = r₀.EntryType) ∧
      (r₀.StudyGroup.isSome → r.StudyGroup = r₀.StudyGroup) ∧
      (r₀.Timestamp.isSome → r.Timestamp = r₀.Timestamp) ∧
      (r₀.StudyOutcome.isSome → r.StudyOutcome = r₀.StudyOutcome)) := by
  have hs6 := hr
  unfold step6 at hs6
  rcases List.mem_map.1 hs6 with ⟨q, hq, hrq⟩
  have hpid : (participantRow (step5 defaultConfig (stage4Out defaultConfig df)) q).ParticipantID
      = some q := rfl
  have hqp : q = p := by
    rw [← hrq, hpid] at hp
    injection hp
  subst hqp
  have hpr : r = participantRow (step5 defaultConfig (stage4Out defaultConfig df)) q := hrq.symm
  refine ⟨?_, hpr, ?_⟩
  · have hle := countP_le_one_of_map_nodup
      (step6_pid_nodup (step5 defaultConfig (stage4Out defaultConfig df))) q
    have hpos : 0 < (step6 (step5 defaultConfig (stage4Out defaultConfig df))).countP
        (fun x => decide (x.ParticipantID = some q)) :=
      List.countP_pos_iff.2 ⟨r, hr, decide_eq_true hp⟩
    omega
  · intro r₀ tl hgr
    refine ⟨fun h => ?_, fun h => ?_, fun h => ?_, fun h => ?_, fun h => ?_, fun h => ?_,
      fun h => ?_, fun h => ?_, fun h => ?_, fun h => ?_, fun h => ?_⟩
    all_goals
      rw [hpr]
      simp only [participantRow]
      rw [hgr]
      exact firstSome_map_cons_of_isSome _ _ _ h

/-- Claim C4, counterexample: on `entriesC4` the chronologically first
surviving entry row has a missing `StudyGroup`, yet the participant row
produced by stage 6 carries `StudyGroup = "A"` (taken from a later row) —
so not every field of the participant row equals the corresponding field
of the first surviving row. -/
theorem C4_counterexample :
    ((step5 defaultConfig (stage4Out defaultConfig entriesC4)).head?).map (·.StudyGroup)
      = some none ∧
    (apply_final_filters defaultConfig [] entriesC4).map (·.StudyGroup) = [some "A"] := by
  decide

/-- The entry table of `entriesC4` surviving stages 1-5. -/
def s5C4 : List Row := step5 defaultConfig (stage4Out defaultConfig entriesC4)

/-- Witness for `C4_first_nonmissing` at the table `entriesC4` and
participant `P1`. -/
theorem C4_first_nonmissing_witness :
    (participantRow s5C4 "P1" ∈ step6 s5C4) ∧
    (participantRow s5C4 "P1").ParticipantID = some "P1" ∧
    (step6 s5C4).countP (fun x => decide (x.ParticipantID = some "P1")) = 1 :=
  ⟨by decide, by decide,
   (C4_first_nonmissing entriesC4 "P1" (participantRow s5C4 "P1") (by decide) (by decide)).1⟩

/-- Claim C8: with an empty outcome mapping (classification file absent)
stage 7 is skipped and `apply_final_filters` returns the stage-1-6
participant table unchanged; with a non-empty mapping, exactly the
participants whose mapped outcome is `Eligible` or `Insufficient` are
kept, and participants absent from the mapping are excluded. -/
theorem C8_outcome_filter (outcomes : List (String × String)) (df : List Row) :
    (outcomes = [] →
      apply_final_filters defaultConfig outcomes df =
        step6 (step5 defaultConfig (stage4Out defaultConfig df))) ∧
    (outcomes ≠ [] → ∀ p : String,
      ((∃ r ∈ apply_final_filters defaultConfig outcomes df, r.ParticipantID = some p) ↔
        ((∃ r ∈ step6 (step5 defaultConfig (stage4Out defaultConfig df)),
            r.ParticipantID = some p) ∧
          (outcomeLookup outcomes p = some "Eligible" ∨
            outcomeLookup outcomes p = some "Insufficient")))) := by
  constructor
  · rintro rfl
    rfl
  · intro hne p
    cases outcomes with
    | nil => exact absurd rfl hne
    | cons kv rest =>
      show (∃ r ∈ (((step6 (step5 defaultConfig (stage4Out defaultConfig df))).map (fun r =>
          { r with StudyOutcome := r.ParticipantID.bind (outcomeLookup (kv :: rest)) })).filter
            (fun r => decide (r.StudyOutcome = some "Eligible" ∨
              r.StudyOutcome = some "Insufficient"))),
          r.ParticipantID = some p) ↔ _
      constructor
      · rintro ⟨r, hrf, hrp⟩
        rcases List.mem_filter.1 hrf with ⟨hrm, hcond⟩
        rcases List.mem_map.1 hrm with ⟨r₀, hr₀, hrr⟩
        have hpid : r.ParticipantID = r₀.ParticipantID := by rw [← hrr]
        have hp₀ : r₀.ParticipantID = some p := by
          rw [← hpid]
          exact hrp
        refine ⟨⟨r₀, hr₀, hp₀⟩, ?_⟩
        have hso : r.StudyOutcome = outcomeLookup (kv :: rest) p := by
          rw [← hrr]
          show r₀.ParticipantID.bind (outcomeLookup (kv :: rest)) = _
          rw [hp₀]
          rfl
        have hcond' := of_decide_eq_true hcond
        rw [hso] at hcond'
        exact hcond'
      · rintro ⟨⟨r₀, hr₀, hp₀⟩, hout⟩
        refine ⟨{r₀ with StudyOutcome := r₀.ParticipantID.bind (outcomeLookup (kv :: rest))},
          ?_, hp₀⟩
        refine List.mem_filter.2 ⟨List.mem_map_of_mem _ hr₀, ?_⟩
        refine decide_eq_true ?_
        show r₀.ParticipantID.bind (outcomeLookup (kv :: rest)) = some "Eligible" ∨
          r₀.ParticipantID.bind (outcomeLookup (kv :: rest)) = some "Insufficient"
        rw [hp₀]
        exact hout

/-- Witness for `C8_outcome_filter`: the empty mapping leaves the
stage-1-6 table unchanged on `entries6`, and with the mapping
`[("P1", "Eligible")]` the membership equivalence holds at `P1`. -/
theorem C8_outcome_filter_witness :
    (apply_final_filters defaultConfig [] entries6 =
      step6 (step5 defaultConfig (stage4Out defaultConfig entries6))) ∧
    ((∃ r ∈ apply_final_filters defaultConfig [("P1", "Eligible")] entries6,
        r.ParticipantID = some "P1") ↔
      ((∃ r ∈ step6 (step5 defaultConfig (stage4Out defaultConfig entries6)),
          r.ParticipantID = some "P1") ∧
        (outcomeLookup [("P1", "Eligible")] "P1" = some "Eligible" ∨
          outcomeLookup [("P1", "Eligible")] "P1" = some "Insufficient"))) :=
  ⟨(C8_outcome_filter [] entries6).1 rfl,
   (C8_outcome_filter [("P1", "Eligible")] entries6).2 (by decide) "P1"⟩

lemma dictLookup_eq_some {α : Type} {l : List (String × α)} {k : String} {v : α}
    (hmem : (k, v) ∈ l) (huniq : ∀ w, (k, w) ∈ l → w = v) : dictLookup l k = some v := by
  unfold dictLookup
  have hmem' : (k, v) ∈ l.reverse := List.mem_reverse.2 hmem
  cases hf : l.reverse.find? (fun kv => decide (kv.1 = k)) with
  | none =>
    rw [List.find?_eq_none] at hf
    have hcontra := hf _ hmem'
    simp at hcontra
  | some kv =>
    obtain ⟨k1, v1⟩ := kv
    have hkvmem : (k1, v1) ∈ l.reverse := List.mem_of_find?_eq_some hf
    have hk1 : k1 = k := by simpa using List.find?_some hf
    subst hk1
    have hv1 : v1 = v := huniq v1 (List.mem_reverse.1 hkvmem)
    rw [hv1]
    rfl

lemma mem_groupMembers_of_mem {t : List (String × String)} {e p : String}
    (h : (e, p) ∈ t) : e ∈ groupMembers t p := by
  unfold groupMembers
  exact List.mem_map_of_mem _ (List.mem_filter.2 ⟨h, by simp⟩)

lemma exists_row_of_mem_groupMembers {t : List (String × String)} {e p : String}
    (h : e ∈ groupMembers t p) : (e, p) ∈ t := by
  unfold groupMembers at h
  rcases List.mem_map.1 h with ⟨⟨e', p'⟩, hmem, he⟩
  rcases List.mem_filter.1 hmem with ⟨hrow, hcond⟩
  have hp' : p' = p := by simpa using hcond
  cases he
  rw [← hp']
  exact hrow

lemma eq_of_map_fst_nodup :
    ∀ {l : List (String × String)}, ((l.map (·.1)).Nodup) →
      ∀ {a b : String × String}, a ∈ l → b ∈ l → a.1 = b.1 → a = b := by
  intro l
  induction l with
  | nil =>
    intro _ a b ha
    cases ha
  | cons x xs ih =>
    intro hnd a b ha hb hf
    rw [List.map_cons, List.nodup_cons] at hnd
    obtain ⟨hx, hnd'⟩ := hnd
    rcases List.mem_cons.1 ha with rfl | ha' <;> rcases List.mem_cons.1 hb with rfl | hb'
    · rfl
    · exact absurd (hf ▸ List.mem_map_of_mem _ hb') hx
    · exact absurd (hf ▸ List.mem_map_of_mem _ ha') hx
    · exact ih hnd' ha' hb' hf

lemma email_group_unique {t : List (String × String)} (hnd : (t.map (·.1)).Nodup)
    {e p p' : String} (h : e ∈ groupMembers t p) (h' : e ∈ groupMembers t p') : p = p' := by
  have h1 := exists_row_of_mem_groupMembers h
  have h2 := exists_row_of_mem_groupMembers h'
  have heq := eq_of_map_fst_nodup hnd h1 h2 rfl
  exact congrArg Prod.snd heq

lemma ip_dict_mem {t : List (String × String)} {p : String}
    (hp : ∃ r ∈ t, r.2 = p) (hq : qualifies t p = true) (hacc : p ∉ accepted_ips) :
    (p, groupMembers t p) ∈ ip_dict t := by
  unfold ip_dict
  refine List.mem_map_of_mem _ (List.mem_filter.2 ⟨?_, ?_⟩)
  · rcases hp with ⟨r, hr, hr2⟩
    rw [List.mem_dedup]
    rw [← hr2]
    exact List.mem_map_of_mem _ hr
  · rw [Bool.and_eq_true]
    exact ⟨hq, decide_eq_true hacc⟩

lemma ip_dict_val_unique {t : List (String × String)} {p : String} {w : List String}
    (hw : (p, w) ∈ ip_dict t) : w = groupMembers t p := by
  unfold ip_dict at hw
  rcases List.mem_map.1 hw with ⟨q, -, heq⟩
  injection heq with h1 h2
  subst h1
  exact h2.symm

lemma ip_dict_key_not_accepted {t : List (String × String)} {p : String} {ms : List String}
    (h : (p, ms) ∈ ip_dict t) : p ∉ accepted_ips := by
  unfold ip_dict at h
  rcases List.mem_map.1 h with ⟨q, hq, heq⟩
  injection heq with h1 hms
  subst h1
  rcases List.mem_filter.1 hq with ⟨-, hcond⟩
  rw [Bool.and_eq_true] at hcond
  exact of_decide_eq_true hcond.2

lemma mem_email_to_ip_intro {t : List (String × String)} {p e : String}
    (hd : (p, groupMembers t p) ∈ ip_dict t) (hgt : 1 < (groupMembers t p).dedup.length)
    (he : e ∈ groupMembers t p) : (e, p) ∈ email_to_ip t := by
  unfold email_to_ip
  refine List.mem_flatMap.2 ⟨(p, groupMembers t p), hd, ?_⟩
  rw [if_pos hgt]
  exact List.mem_map_of_mem _ he

lemma mem_email_to_ip_elim {t : List (String × String)} {ep : String × String}
    (h : ep ∈ email_to_ip t) :
    ep.1 ∈ groupMembers t ep.2 ∧ (ep.2, groupMembers t ep.2) ∈ ip_dict t := by
  unfold email_to_ip at h
  rcases List.mem_flatMap.1 h with ⟨pe, hpe, hmem⟩
  by_cases hc : 1 < pe.2.dedup.length
  · rw [if_pos hc] at hmem
    rcases List.mem_map.1 hmem with ⟨e', he', heq⟩
    obtain ⟨q, mq⟩ := pe
    have hval : mq = groupMembers t q := ip_dict_val_unique hpe
    subst hval
    cases heq
    exact ⟨he', hpe⟩
  · rw [if_neg hc] at hmem
    cases hmem

/-- Claim C6: grouping participants by the first three octets of a
stage's submission IP, every member of a group with at least two distinct
participants whose truncated prefix is not allow-listed gets the flag set
true, with the stored co-flagged list equal to the full member list of
the group and the count equal to that list's length; a participant whose
truncated prefix is on the allow-list is never flagged (flag false,
empty co-flagged list, count zero). -/
theorem C6_shared_ip (merged : List IPRow) (r : IPRow)
    (hnd : (merged.map (·.email)).Nodup)
    (hr : r ∈ merged) :
    (processIP r.ip ∉ accepted_ips →
      1 < (groupMembers (processTable merged) (processIP r.ip)).dedup.length →
      flaggedIP (processTable merged) r.email = true ∧
      flaggedIPEmails (processTable merged) r.email =
        groupMembers (processTable merged) (processIP r.ip) ∧
      flaggedIPCount (processTable merged) r.email =
        (groupMembers (processTable merged) (processIP r.ip)).length) ∧
    (processIP r.ip ∈ accepted_ips →
      flaggedIP (processTable merged) r.email = false ∧
      flaggedIPEmails (processTable merged) r.email = [] ∧
      flaggedIPCount (processTable merged) r.email = 0) := by
  have hndt : ((processTable merged).map (·.1)).Nodup := by
    unfold processTable
    rw [List.map_map]
    exact hnd
  have hrow : (r.email, processIP r.ip) ∈ processTable merged :=
    List.mem_map_of_mem _ hr
  have he : r.email ∈ groupMembers (processTable merged) (processIP r.ip) :=
    mem_groupMembers_of_mem hrow
  constructor
  · intro hacc h2
    have hlen : 1 < (groupMembers (processTable merged) (processIP r.ip)).length :=
      lt_of_lt_of_le h2 ((List.dedup_sublist _).length_le)
    have hq : qualifies (processTable merged) (processIP r.ip) = true := by
      unfold qualifies
      rw [Bool.and_eq_true]
      exact ⟨decide_eq_true hlen, decide_eq_true h2⟩
    have hd : (processIP r.ip, groupMembers (processTable merged) (processIP r.ip)) ∈
        ip_dict (processTable merged) :=
      ip_dict_mem ⟨(r.email, processIP r.ip), hrow, rfl⟩ hq hacc
    have hmem1 : (r.email, processIP r.ip) ∈ email_to_ip (processTable merged) :=
      mem_email_to_ip_intro hd h2 he
    have huniq1 : ∀ w, (r.email, w) ∈ email_to_ip (processTable merged) →
        w = processIP r.ip := by
      intro w hw
      have helim := mem_email_to_ip_elim hw
      exact email_group_unique hndt helim.1 he
    have hlook1 : dictLookup (email_to_ip (processTable merged)) r.email =
        some (processIP r.ip) :=
      dictLookup_eq_some hmem1 huniq1
    have hlook2 : dictLookup (ip_dict (processTable merged)) (processIP r.ip) =
        some (groupMembers (processTable merged) (processIP r.ip)) :=
      dictLookup_eq_some hd (fun w hw => ip_dict_val_unique hw)
    refine ⟨?_, ?_, ?_⟩
    · rw [flaggedIP, hlook1]
      rfl
    · simp only [flaggedIPEmails, hlook1, hlook2, Option.getD_some]
    · simp only [flaggedIPCount, flaggedIPEmails, hlook1, hlook2, Option.getD_some]
  · intro hacc
    have hnone : dictLookup (email_to_ip (processTable merged)) r.email = none := by
      unfold dictLookup
      rw [Option.map_eq_none', List.find?_eq_none]
      rintro ⟨e', w⟩ hx
      intro hdec
      have he' : e' = r.email := of_decide_eq_true hdec
      subst he'
      have hx' : (r.email, w) ∈ email_to_ip (processTable merged) := List.mem_reverse.1 hx
      have helim := mem_email_to_ip_elim hx'
      have hwp : w = processIP r.ip := email_group_unique hndt helim.1 he
      rw [hwp] at helim
      exact ip_dict_key_not_accepted helim.2 hacc
    refine ⟨?_, ?_, ?_⟩
    · rw [flaggedIP, hnone]
      rfl
    · simp only [flaggedIPEmails, hnone]
    · simp only [flaggedIPCount, flaggedIPEmails, hnone, List.length_nil]

/-- The shared-IP example table: three participants on a non-allow-listed
prefix, two on the allow-listed institutional prefix `144.82.8`. -/
def mergedEx : List IPRow :=
  [{ email := "a", ip := some "10.0.0.5" },
   { email := "b", ip := some "10.0.0.9" },
   { email := "c", ip := some "10.0.0.12" },
   { email := "d", ip := some "144.82.8.10" },
   { email := "e", ip := some "144.82.8.20" }]

/-- Witness for `C6_shared_ip`: participants submitting from `10.0.0.5`,
`10.0.0.9` and `10.0.0.12` (prefix not allow-listed) are flagged with a
co-flagged list of all three and count `3`, while a participant on the
allow-listed prefix `144.82.8` (shared with another participant) is not
flagged. -/
theorem C6_shared_ip_witness :
    ((mergedEx.map (·.email)).Nodup ∧
      ({ email := "a", ip := some "10.0.0.5" } : IPRow) ∈ mergedEx ∧
      ({ email := "d", ip := some "144.82.8.10" } : IPRow) ∈ mergedEx ∧
      processIP (some "10.0.0.5") ∉ accepted_ips ∧
      processIP (some "144.82.8.10") ∈ accepted_ips ∧
      1 < (groupMembers (processTable mergedEx) (processIP (some "10.0.0.5"))).dedup.length) ∧
    (flaggedIP (processTable mergedEx) "a" = true ∧
      flaggedIPEmails (processTable mergedEx) "a" =
        groupMembers (processTable mergedEx) (processIP (some "10.0.0.5")) ∧
      flaggedIPCount (processTable mergedEx) "a" =
        (groupMembers (processTable mergedEx) (processIP (some "10.0.0.5"))).length) ∧
    (flaggedIP (processTable mergedEx) "d" = false ∧
      flaggedIPEmails (processTable mergedEx) "d" = [] ∧
      flaggedIPCount (processTable mergedEx) "d" = 0) ∧
    flaggedIPCount (processTable mergedEx) "a" = 3 :=
  ⟨⟨by decide, by decide, by decide, by decide, by decide, by decide⟩,
   (C6_shared_ip mergedEx { email := "a", ip := some "10.0.0.5" }
     (by decide) (by decide)).1 (by decide) (by decide),
   (C6_shared_ip mergedEx { email := "d", ip := some "144.82.8.10" }
     (by decide) (by decide)).2 (by decide),
   by decide⟩

/-- Claim C5: the consecutive-run flag for a stage × instrument item
sequence is true exactly when, scanning in column order, some run of
identical consecutive answers exceeds the threshold in length (equal
values extend the run, a differing value resets it); and the 15-item
sequence with one value at positions 1-11 and another at 12-15 triggers
the consecutive-run flag at threshold 10 but not the same-answer flag. -/
theorem C5_consecutive_run :
    (∀ (l : List (Option ℤ)) (t : Nat), 1 ≤ t →
      (has_consecutive_answers l t = true ↔ existsLongRun t l)) ∧
    has_consecutive_answers ex15 10 = true ∧
    sameAnswerFlag ex15 = false := by
  refine ⟨fun l t ht => has_consecutive_answers_iff l t ht, ?_, ?_⟩ <;> decide

/-- Witness for `C5_consecutive_run` at the 15-item example sequence and
the default threshold `10`. -/
theorem C5_consecutive_run_witness :
    1 ≤ 10 ∧ (has_consecutive_answers ex15 10 = true ↔ existsLongRun 10 ex15) :=
  ⟨by decide, C5_consecutive_run.1 ex15 10 (by decide)⟩

end JournalPipeline
